import Mathlib

/-!
# Verification of the idle-dungeon game server core

Shallow embedding of the Go sources (`internal/game`, `internal/models`,
and the monolithic `main` variant) of the idle-dungeon repository,
together with proofs checking the natural-language specification
against the code.

Modelling conventions:
* Go `int` is modelled as `Int` (all quantities in the claims stay far
  from the 64-bit overflow range, so wrap-around is not observable).
* Go `float64` fields (`Station.Multiplier`) are idealised as exact
  rationals `ℚ`; the spec itself only constrains them "within
  floating-point tolerance".  In the exact regime that the claims live
  in (`cost * 1.5` with cost below 2^52) the float computation is
  exact, so the rational model agrees with the Go semantics.
* Go `int(x)` conversion from `float64` truncates toward zero, modelled
  by `goTrunc`; Go integer division truncates toward zero, modelled by
  `Int.tdiv`.
* Mutation through pointers is modelled by returning the updated
  record.
-/

namespace IdleDungeon

/-! ## Data model (`models` package / `part_000` type declarations) -/

/-- `Station` from the source: level, multiplier (float64, idealised as ℚ),
cost. -/
structure Station where
  level : Int
  multiplier : ℚ
  cost : Int
deriving DecidableEq

/-- `Factory` from the source: the four stations, in source field order. -/
structure Factory where
  hpStation : Station
  armorStation : Station
  lootStation : Station
  attackStation : Station
deriving DecidableEq

/-- `Progress` from the source. -/
structure Progress where
  dungeonLevel : Int
  gold : Int
  experience : Int
deriving DecidableEq

/-- `Hero` from the source. -/
structure Hero where
  hp : Int
  armor : Int
  attack : Int
  loot : Int
deriving DecidableEq

/-- `Player` from the source; the `time.Time` last-seen stamp is an opaque
`Nat`. -/
structure Player where
  id : String
  name : String
  factory : Factory
  progress : Progress
  lastSeen : Nat
deriving DecidableEq

/-- `BattleResult` from the source. -/
structure BattleResult where
  victory : Bool
  goldReward : Int
  expReward : Int
deriving DecidableEq

/-! ## Go primitive operations -/

/-- Go's `int(x)` conversion applied to an exact rational value of a
`float64` expression: truncation toward zero. -/
def goTrunc (q : ℚ) : Int := q.num.tdiv (q.den : Int)

/-- Go's integer division `/` truncates toward zero (`Int.tdiv`). -/
def goDiv (a b : Int) : Int := a.tdiv b

/-- The `max` helper defined identically in both Go copies of the source:
`if a > b { return a }; return b`. -/
def goMax (a b : Int) : Int := if a > b then a else b

/-- Go slice expression `s[:n]` on a string: panics (`none`) when `n`
exceeds the byte length of `s`; otherwise yields the prefix (for the
ASCII identifiers in play, the first `n` characters). -/
def goSliceTo (s : String) (n : Nat) : Option String :=
  if n ≤ s.utf8ByteSize then some (String.mk (s.data.take n)) else none

/-! ## Station lookup and upgrade (`upgrade.go` / `part_000`) -/

/-- Which of the four `Factory` fields a `*Station` pointer refers to. -/
inductive StationField where
  | hp
  | armor
  | loot
  | attack
deriving DecidableEq

/-- Read a station field of a factory. -/
def Factory.get (f : Factory) : StationField → Station
  | .hp => f.hpStation
  | .armor => f.armorStation
  | .loot => f.lootStation
  | .attack => f.attackStation

/-- Replace a station field of a factory. -/
def Factory.set (f : Factory) : StationField → Station → Factory
  | .hp, s => { f with hpStation := s }
  | .armor, s => { f with armorStation := s }
  | .loot, s => { f with lootStation := s }
  | .attack, s => { f with attackStation := s }

/-- `getStationByType` from `upgrade.go`: the `switch` on the station
type string, in source case order; `none` models the `nil` pointer
returned for an unknown station type. -/
def getStationByType (stationType : String) : Option StationField :=
  if stationType = "hp" then some .hp
  else if stationType = "armor" then some .armor
  else if stationType = "loot" then some .loot
  else if stationType = "attack" then some .attack
  else none

/-- `UpgradeStation` from `upgrade.go` (the `part_000` copy performs the
identical mutation, merely without the boolean result): resolve the
station, reject unknown types, reject insufficient gold, otherwise
deduct the cost, bump level, add 0.2 to the multiplier and multiply the
cost by 1.5 with `int(...)` truncation. -/
def upgradeStation (player : Player) (stationType : String) : Bool × Player :=
  match getStationByType stationType with
  | none => (false, player)
  | some fld =>
    let station := player.factory.get fld
    if player.progress.gold < station.cost then
      (false, player)
    else
      (true,
        { player with
          progress := { player.progress with
                        gold := player.progress.gold - station.cost }
          factory := player.factory.set fld
            { level := station.level + 1
              multiplier := station.multiplier + 1/5
              cost := goTrunc ((station.cost : ℚ) * (3/2)) } })

/-! ## Player creation (`part_000` `getOrCreatePlayer`) -/

/-- The station literal `{Level: 1, Multiplier: 1.0, Cost: 100}` used for
all four default stations. -/
def defaultStation : Station := { level := 1, multiplier := 1, cost := 100 }

/-- The default factory built by `getOrCreatePlayer`. -/
def defaultFactory : Factory :=
  { hpStation := defaultStation
    armorStation := defaultStation
    lootStation := defaultStation
    attackStation := defaultStation }

/-- The default progress built by `getOrCreatePlayer`. -/
def defaultProgress : Progress :=
  { dungeonLevel := 1, gold := 0, experience := 0 }

/-- The new-player construction from `part_000` `getOrCreatePlayer`:
`Name: "Player " + playerID[:8]` together with the default factory and
progress.  `none` models the panic of the slice expression when the
identifier is shorter than 8 bytes. -/
def newPlayer (playerID : String) (now : Nat) : Option Player :=
  match goSliceTo playerID 8 with
  | none => none
  | some pre =>
    some { id := playerID
           name := "Player " ++ pre
           factory := defaultFactory
           progress := defaultProgress
           lastSeen := now }

/-- `getOrCreatePlayer` from `part_000`, over an association-list model
of the `Players` map: an existing record gets its last-seen stamp
refreshed; a missing record is created via `newPlayer` (which can
panic) and inserted.  The result pairs the returned player with the
updated map; `none` models a panic. -/
def getOrCreatePlayer (players : List (String × Player)) (playerID : String)
    (now : Nat) : Option (Player × List (String × Player)) :=
  match players.lookup playerID with
  | some p =>
    let p' := { p with lastSeen := now }
    some (p', players.map fun e => if e.1 = playerID then (e.1, p') else e)
  | none =>
    match newPlayer playerID now with
    | none => none
    | some p => some (p, players ++ [(playerID, p)])

/-! ## Hero creation and battle simulation (`battle.go` / `part_000`) -/

/-- `createHero`: base stats 100 / 10 / 20 / 1 scaled by the station
multipliers and truncated back to `int`. -/
def createHero (factory : Factory) : Hero :=
  { hp := goTrunc ((100 : ℚ) * factory.hpStation.multiplier)
    armor := goTrunc ((10 : ℚ) * factory.armorStation.multiplier)
    attack := goTrunc ((20 : ℚ) * factory.attackStation.multiplier)
    loot := goTrunc ((1 : ℚ) * factory.lootStation.multiplier) }

/-- `enemyHP := 50 + (dungeonLevel * 10)` from `simulateBattle`. -/
def enemyHPFor (dungeonLevel : Int) : Int := 50 + dungeonLevel * 10

/-- `enemyAttack := 15 + (dungeonLevel * 5)` from `simulateBattle`. -/
def enemyAttackFor (dungeonLevel : Int) : Int := 15 + dungeonLevel * 5

/-- `heroDamage := max(1, hero.Attack-enemyAttack/2)` from
`simulateBattle` (Go division truncates). -/
def heroDamageFor (hero : Hero) (dungeonLevel : Int) : Int :=
  goMax 1 (hero.attack - goDiv (enemyAttackFor dungeonLevel) 2)

/-- `enemyDamage := max(1, enemyAttack-hero.Armor)` from
`simulateBattle`. -/
def enemyDamageFor (hero : Hero) (dungeonLevel : Int) : Int :=
  goMax 1 (enemyAttackFor dungeonLevel - hero.armor)

theorem one_le_goMax (a : Int) : 1 ≤ goMax 1 a := by
  unfold goMax; split <;> omega

theorem one_le_heroDamageFor (hero : Hero) (dungeonLevel : Int) :
    1 ≤ heroDamageFor hero dungeonLevel := one_le_goMax _

/-- The battle loop of `simulateBattle`:
`for heroHP > 0 && enemyHP > 0 { enemyHP -= heroDamage; if enemyHP <= 0 { break }; heroHP -= enemyDamage }`,
returning the hero's HP at loop exit.  The per-exchange damages are the
loop-invariant values computed from `hero` and `dungeonLevel` before
the loop; termination holds because `heroDamageFor ≥ 1` makes the
enemy's HP strictly decrease. -/
def battleLoop (hero : Hero) (dungeonLevel : Int) (heroHP enemyHP : Int) : Int :=
  if _h : 0 < heroHP ∧ 0 < enemyHP then
    if enemyHP - heroDamageFor hero dungeonLevel ≤ 0 then
      heroHP
    else
      battleLoop hero dungeonLevel (heroHP - enemyDamageFor hero dungeonLevel)
        (enemyHP - heroDamageFor hero dungeonLevel)
  else heroHP
termination_by enemyHP.toNat
decreasing_by
  have := one_le_heroDamageFor hero dungeonLevel
  omega

/-- Fuel-indexed version of the battle loop, used to exhibit an explicit
iteration bound: `none` means the fuel ran out before the loop exited. -/
def battleLoopFuel (hero : Hero) (dungeonLevel : Int) :
    Nat → Int → Int → Option Int
  | fuel, heroHP, enemyHP =>
    if 0 < heroHP ∧ 0 < enemyHP then
      match fuel with
      | 0 => none
      | f + 1 =>
        if enemyHP - heroDamageFor hero dungeonLevel ≤ 0 then
          some heroHP
        else
          battleLoopFuel hero dungeonLevel f
            (heroHP - enemyDamageFor hero dungeonLevel)
            (enemyHP - heroDamageFor hero dungeonLevel)
    else some heroHP

/-- `simulateBattle` from `battle.go` (identical to `battle` in
`part_000`): set up the enemy, run the loop, and report victory (hero
HP still positive at exit) together with the rewards, which are
computed regardless of the outcome. -/
def simulateBattle (hero : Hero) (dungeonLevel : Int) : BattleResult :=
  let finalHeroHP := battleLoop hero dungeonLevel hero.hp (enemyHPFor dungeonLevel)
  { victory := decide (0 < finalHeroHP)
    goldReward := (10 + dungeonLevel * 2) * hero.loot
    expReward := 5 + dungeonLevel }

/-- `processPlayer` from `battle.go` / `part_000`: derive the hero,
resolve one battle, and fold the outcome into the player's progress
(full rewards plus a dungeon-level and experience bump on victory, half
the gold reward on defeat). -/
def processPlayer (player : Player) : Player :=
  let hero := createHero player.factory
  let battleResult := simulateBattle hero player.progress.dungeonLevel
  if battleResult.victory then
    { player with
      progress := { dungeonLevel := player.progress.dungeonLevel + 1
                    gold := player.progress.gold + battleResult.goldReward
                    experience := player.progress.experience + battleResult.expReward } }
  else
    { player with
      progress := { player.progress with
                    gold := player.progress.gold + goDiv battleResult.goldReward 2 } }

/-! ## Spec-side battle model (for the refinement comparison) -/

/-- Modelled from the spec: `heroDamage = max(1, hero.attack − enemyAttack/2)`
with `enemyAttack = 15 + 5×dungeonLevel` and truncating integer
division (§4.2). -/
def specHeroDamage (hero : Hero) (dungeonLevel : Int) : Int :=
  max 1 (hero.attack - goDiv (15 + 5 * dungeonLevel) 2)

/-- Modelled from the spec: `enemyDamage = max(1, enemyAttack − hero.armor)`
(§4.2). -/
def specEnemyDamage (hero : Hero) (dungeonLevel : Int) : Int :=
  max 1 ((15 + 5 * dungeonLevel) - hero.armor)

/-- Modelled from the spec (§4.2): alternating exchanges with the hero
striking first; a strike that brings enemy HP to ≤ 0 ends the battle in
victory immediately with no counter-strike; otherwise the enemy
strikes; the loop repeats until one side's HP is ≤ 0, and victory holds
iff the hero's HP is > 0 at loop exit. -/
def specExchanges (hero : Hero) (dungeonLevel : Int) (heroHP enemyHP : Int) : Bool :=
  if _h : 0 < heroHP ∧ 0 < enemyHP then
    if enemyHP - specHeroDamage hero dungeonLevel ≤ 0 then
      true
    else
      specExchanges hero dungeonLevel
        (heroHP - specEnemyDamage hero dungeonLevel)
        (enemyHP - specHeroDamage hero dungeonLevel)
  else decide (0 < heroHP)
termination_by enemyHP.toNat
decreasing_by
  have h1 : (1 : Int) ≤ specHeroDamage hero dungeonLevel := le_max_left 1 _
  omega

/-- Modelled from the spec (§4.2): `resolveBattle(hero, dungeonLevel)`
with `enemyHP = 50 + 10×dungeonLevel`,
`goldReward = (10 + 2×dungeonLevel) × hero.loot` (always computed) and
`expReward = 5 + dungeonLevel`. -/
def specResolveBattle (hero : Hero) (dungeonLevel : Int) : BattleResult :=
  { victory := specExchanges hero dungeonLevel hero.hp (50 + 10 * dungeonLevel)
    goldReward := (10 + 2 * dungeonLevel) * hero.loot
    expReward := 5 + dungeonLevel }

/-! ## Battle loop lemmas -/

theorem specHeroDamage_eq (hero : Hero) (dungeonLevel : Int) :
    specHeroDamage hero dungeonLevel = heroDamageFor hero dungeonLevel := by
  have h5 : 15 + 5 * dungeonLevel = enemyAttackFor dungeonLevel := by
    unfold enemyAttackFor; ring
  unfold specHeroDamage heroDamageFor goMax
  rw [h5, max_def]
  split <;> split <;> omega

theorem specEnemyDamage_eq (hero : Hero) (dungeonLevel : Int) :
    specEnemyDamage hero dungeonLevel = enemyDamageFor hero dungeonLevel := by
  have h5 : 15 + 5 * dungeonLevel = enemyAttackFor dungeonLevel := by
    unfold enemyAttackFor; ring
  unfold specEnemyDamage enemyDamageFor goMax
  rw [h5, max_def]
  split <;> split <;> omega

theorem specExchanges_eq_battleLoop (hero : Hero) (dungeonLevel : Int) :
    ∀ (n : Nat) (heroHP enemyHP : Int), enemyHP.toNat ≤ n →
      specExchanges hero dungeonLevel heroHP enemyHP =
        decide (0 < battleLoop hero dungeonLevel heroHP enemyHP) := by
  intro n
  induction n with
  | zero =>
    intro hp e he
    rw [specExchanges, battleLoop]
    have hne : ¬(0 < hp ∧ 0 < e) := by omega
    simp [hne]
  | succ n ih =>
    intro hp e he
    rw [specExchanges, battleLoop]
    by_cases h : 0 < hp ∧ 0 < e
    · rw [dif_pos h, dif_pos h, specHeroDamage_eq]
      by_cases hk : e - heroDamageFor hero dungeonLevel ≤ 0
      · simp [hk, h.1]
      · rw [if_neg hk, if_neg hk, specEnemyDamage_eq]
        exact ih _ _ (by have := one_le_heroDamageFor hero dungeonLevel; omega)
    · simp [h]

theorem battleLoopFuel_eq (hero : Hero) (dungeonLevel : Int) :
    ∀ (fuel : Nat) (heroHP enemyHP : Int), enemyHP.toNat ≤ fuel →
      battleLoopFuel hero dungeonLevel fuel heroHP enemyHP =
        some (battleLoop hero dungeonLevel heroHP enemyHP) := by
  intro fuel
  induction fuel with
  | zero =>
    intro hp e he
    rw [battleLoopFuel, battleLoop]
    have hne : ¬(0 < hp ∧ 0 < e) := by omega
    simp [hne]
  | succ n ih =>
    intro hp e he
    rw [battleLoopFuel, battleLoop]
    by_cases h : 0 < hp ∧ 0 < e
    · rw [if_pos h, dif_pos h]
      by_cases hk : e - heroDamageFor hero dungeonLevel ≤ 0
      · simp [hk]
      · simp only [if_neg hk]
        exact ih _ _ (by have := one_le_heroDamageFor hero dungeonLevel; omega)
    · simp [h]

/-! ## Claim theorems: battle simulation -/

/-- C3: `resolveBattle` follows exactly the spec's algorithm for every
hero and every dungeon level — enemy stats `50 + 10×L` / `15 + 5×L`,
per-exchange damages fixed for the whole battle, hero strikes first,
immediate victory (no counter-strike) when a strike brings enemy HP to
≤ 0, loop until one side's HP is ≤ 0, victory iff hero HP > 0 at exit,
rewards always computed — and for the default hero (hp 100, armor 10,
attack 20, loot 1) against dungeon level 1 the outcome is victory with
gold reward 12 and experience reward 6. -/
theorem simulateBattle_follows_spec :
    (∀ (hero : Hero) (dungeonLevel : Int),
        simulateBattle hero dungeonLevel = specResolveBattle hero dungeonLevel) ∧
      simulateBattle { hp := 100, armor := 10, attack := 20, loot := 1 } 1 =
        { victory := true, goldReward := 12, expReward := 6 } := by
  constructor
  · intro hero dungeonLevel
    have hHP : 50 + 10 * dungeonLevel = enemyHPFor dungeonLevel := by
      unfold enemyHPFor; ring
    unfold simulateBattle specResolveBattle
    simp only [BattleResult.mk.injEq]
    refine ⟨?_, by ring, by trivial⟩
    rw [hHP, specExchanges_eq_battleLoop hero dungeonLevel
      (enemyHPFor dungeonLevel).toNat hero.hp (enemyHPFor dungeonLevel) le_rfl]
  · have hfuel := battleLoopFuel_eq { hp := 100, armor := 10, attack := 20, loot := 1 }
      1 60 100 60 (by decide)
    have hval : battleLoopFuel { hp := 100, armor := 10, attack := 20, loot := 1 }
        1 60 100 60 = some 50 := by decide
    rw [hval] at hfuel
    have hloop : battleLoop { hp := 100, armor := 10, attack := 20, loot := 1 }
        1 100 60 = 50 := (Option.some.injEq _ _).mp hfuel.symm
    unfold simulateBattle
    have h60 : enemyHPFor 1 = 60 := by decide
    simp [h60, hloop]

/-- C9: the battle loop exits after finitely many exchanges for every
hero record and every dungeon level: because the hero's per-exchange
damage is `max(1, …) ≥ 1`, enemy HP strictly decreases every
iteration, so `enemyHP.toNat` units of fuel already suffice for the
fuel-indexed loop to reach the exit that the loop reaches. -/
theorem battleLoop_terminates (hero : Hero) (dungeonLevel : Int) :
    battleLoopFuel hero dungeonLevel (enemyHPFor dungeonLevel).toNat
        hero.hp (enemyHPFor dungeonLevel) =
      some (battleLoop hero dungeonLevel hero.hp (enemyHPFor dungeonLevel)) :=
  battleLoopFuel_eq hero dungeonLevel _ _ _ le_rfl

/-- C6: `processPlayer` applies the battle outcome exactly as the spec's
`applyOutcome` describes — victory bumps the dungeon level by 1 and
adds the full rewards, defeat adds half the gold reward (truncating
division) and leaves dungeon level and experience unchanged — and the
rewards fed into it are always `goldReward = (10 + 2×L) × hero.loot`
and `expReward = 5 + L`, win or lose. -/
theorem processPlayer_applies_outcome (p : Player) :
    (simulateBattle (createHero p.factory) p.progress.dungeonLevel).goldReward =
        (10 + 2 * p.progress.dungeonLevel) * (createHero p.factory).loot ∧
    (simulateBattle (createHero p.factory) p.progress.dungeonLevel).expReward =
        5 + p.progress.dungeonLevel ∧
    processPlayer p =
      (if (simulateBattle (createHero p.factory) p.progress.dungeonLevel).victory then
        { p with progress :=
          { dungeonLevel := p.progress.dungeonLevel + 1
            gold := p.progress.gold +
              (simulateBattle (createHero p.factory) p.progress.dungeonLevel).goldReward
            experience := p.progress.experience +
              (simulateBattle (createHero p.factory) p.progress.dungeonLevel).expReward } }
      else
        { p with progress :=
          { dungeonLevel := p.progress.dungeonLevel
            gold := p.progress.gold +
              goDiv (simulateBattle (createHero p.factory) p.progress.dungeonLevel).goldReward 2
            experience := p.progress.experience } }) := by
  refine ⟨?_, rfl, rfl⟩
  unfold simulateBattle
  ring

/-! ## Claim theorems: station upgrades -/

/-- A sample player used to instantiate the upgrade theorems on concrete
inputs: default factory, 100 gold. -/
def samplePlayer : Player :=
  { id := "abcdefgh"
    name := "Player abcdefgh"
    factory := defaultFactory
    progress := { dungeonLevel := 1, gold := 100, experience := 0 }
    lastSeen := 0 }

/-- A sample player with no gold. -/
def brokePlayer : Player :=
  { samplePlayer with progress := { samplePlayer.progress with gold := 0 } }

/-- C5: if the player's gold is below the selected station's cost, the
upgrade call fails and leaves the whole player record — gold, and the
station's level, multiplier and cost — unchanged. -/
theorem upgradeStation_insufficient_gold (p : Player) (stationType : String)
    (fld : StationField) (hfld : getStationByType stationType = some fld)
    (hgold : p.progress.gold < (p.factory.get fld).cost) :
    upgradeStation p stationType = (false, p) := by
  unfold upgradeStation
  rw [hfld]
  simp [hgold]

/-- Witness for C5: a default player with 0 gold cannot afford the
100-gold hp upgrade, and the call leaves the player unchanged. -/
theorem upgradeStation_insufficient_gold_witness :
    upgradeStation brokePlayer "hp" = (false, brokePlayer) :=
  upgradeStation_insufficient_gold brokePlayer "hp" .hp (by decide) (by decide)

/-- C7: for every station key outside {hp, armor, loot, attack} the
upgrade call is a no-op returning failure: the factory and the whole
progress record are unchanged. -/
theorem upgradeStation_unknown_key (p : Player) (stationType : String)
    (h : stationType ∉ (["hp", "armor", "loot", "attack"] : List String)) :
    upgradeStation p stationType = (false, p) := by
  simp only [List.mem_cons, List.not_mem_nil, or_false] at h
  push_neg at h
  unfold upgradeStation getStationByType
  simp [h.1, h.2.1, h.2.2.1, h.2.2.2]

/-- Witness for C7: the unknown key "xp" is rejected without mutation. -/
theorem upgradeStation_unknown_key_witness :
    upgradeStation samplePlayer "xp" = (false, samplePlayer) :=
  upgradeStation_unknown_key samplePlayer "xp" (by decide)

/-- C10: a successful upgrade with key `k` modifies only the targeted
station and the player's gold: every other station, the dungeon level,
the experience, the identifier, the display name and the last-seen
timestamp are unchanged. -/
theorem upgradeStation_frame (p : Player) (stationType : String)
    (fld : StationField) (hfld : getStationByType stationType = some fld)
    (hsucc : (upgradeStation p stationType).1 = true) :
    (∀ fld', fld' ≠ fld →
        (upgradeStation p stationType).2.factory.get fld' = p.factory.get fld') ∧
    (upgradeStation p stationType).2.progress.dungeonLevel = p.progress.dungeonLevel ∧
    (upgradeStation p stationType).2.progress.experience = p.progress.experience ∧
    (upgradeStation p stationType).2.id = p.id ∧
    (upgradeStation p stationType).2.name = p.name ∧
    (upgradeStation p stationType).2.lastSeen = p.lastSeen := by
  unfold upgradeStation at *
  rw [hfld] at *
  by_cases hg : p.progress.gold < (p.factory.get fld).cost
  · simp [hg] at hsucc
  · simp only [if_neg hg]
    refine ⟨?_, by trivial, by trivial, by trivial, by trivial, by trivial⟩
    intro fld' hne
    cases fld <;> cases fld' <;> simp_all [Factory.get, Factory.set]

/-- Witness for C10: upgrading the hp station of a player with exactly
100 gold succeeds and leaves the armor station, the dungeon level and
the identifier untouched. -/
theorem upgradeStation_frame_witness :
    (upgradeStation samplePlayer "hp").2.factory.get .armor =
        samplePlayer.factory.get .armor ∧
    (upgradeStation samplePlayer "hp").2.progress.dungeonLevel =
        samplePlayer.progress.dungeonLevel ∧
    (upgradeStation samplePlayer "hp").2.id = samplePlayer.id := by
  have h := upgradeStation_frame samplePlayer "hp" .hp (by decide) (by decide)
  exact ⟨h.1 .armor (by decide), h.2.1, h.2.2.2.1⟩

/-! ## Claim theorems: the upgrade cost curve (C1) -/

/-- `n` successive upgrade calls on one station of one player. -/
def upgradeNTimes (p : Player) (stationType : String) : Nat → Player
  | 0 => p
  | n + 1 => (upgradeStation (upgradeNTimes p stationType n) stationType).2

/-- All of the first `n` upgrade calls succeed. -/
def upgradesSucceed (p : Player) (stationType : String) (n : Nat) : Prop :=
  ∀ i < n, (upgradeStation (upgradeNTimes p stationType i) stationType).1 = true

/-- The cost sequence the code actually produces: the incremental
recurrence `cost ← int(float64(cost) * 1.5)` starting from 100. -/
def iterCost : Nat → Int
  | 0 => 100
  | n + 1 => goTrunc ((iterCost n : ℚ) * (3/2))

/-- On success, the targeted station is replaced by its stepped version:
level + 1, multiplier + 0.2, cost ← `int(cost * 1.5)`. -/
theorem upgradeStation_success_station (p : Player) (stationType : String)
    (fld : StationField) (hfld : getStationByType stationType = some fld)
    (hsucc : (upgradeStation p stationType).1 = true) :
    (upgradeStation p stationType).2.factory.get fld =
      { level := (p.factory.get fld).level + 1
        multiplier := (p.factory.get fld).multiplier + 1/5
        cost := goTrunc (((p.factory.get fld).cost : ℚ) * (3/2)) } := by
  unfold upgradeStation at *
  rw [hfld] at *
  by_cases hg : p.progress.gold < (p.factory.get fld).cost
  · simp [hg] at hsucc
  · simp only [if_neg hg]
    cases fld <;> simp [Factory.get, Factory.set]

/-- C1 (amended): applying the upgrade `n` times successfully on one
station, starting from the default station (level 1, multiplier 1.0,
cost 100), yields `cost = iterCost n` — the n-fold iterate of
`c ↦ ⌊c × 1.5⌋` from 100, which the code recomputes incrementally —
together with `multiplier = 1.0 + 0.2×n` and `level = 1 + n`.  (The
spec's closed form `⌊100 × 1.5^n⌋` agrees only for n ≤ 3; see the
counterexample at n = 4.) -/
theorem upgradeNTimes_cost_multiplier (p : Player) (stationType : String)
    (fld : StationField) (n : Nat)
    (hfld : getStationByType stationType = some fld)
    (hinit : p.factory.get fld = defaultStation)
    (hsucc : upgradesSucceed p stationType n) :
    ((upgradeNTimes p stationType n).factory.get fld).cost = iterCost n ∧
    ((upgradeNTimes p stationType n).factory.get fld).multiplier = 1 + (n : ℚ) / 5 ∧
    ((upgradeNTimes p stationType n).factory.get fld).level = 1 + (n : Int) := by
  induction n with
  | zero =>
    simp [upgradeNTimes, hinit, defaultStation, iterCost]
  | succ n ih =>
    have hsn : upgradesSucceed p stationType n := fun i hi => hsucc i (by omega)
    obtain ⟨hc, hm, hl⟩ := ih hsn
    have hstep := upgradeStation_success_station (upgradeNTimes p stationType n)
      stationType fld hfld (hsucc n (by omega))
    have hrw : upgradeNTimes p stationType (n + 1) =
        (upgradeStation (upgradeNTimes p stationType n) stationType).2 := rfl
    rw [hrw, hstep]
    refine ⟨?_, ?_, ?_⟩
    · simp only [iterCost, hc]
    · simp only [hm]
      push_cast
      ring
    · simp only [hl]
      push_cast
      ring

/-- Witness for C1 (amended): two successful hp upgrades of a player
holding 250 gold end with cost 225 = iterCost 2, multiplier 1.4 and
level 3. -/
theorem upgradeNTimes_cost_multiplier_witness :
    ((upgradeNTimes { samplePlayer with
        progress := { samplePlayer.progress with gold := 250 } } "hp" 2).factory.get
      .hp).cost = iterCost 2 ∧
    ((upgradeNTimes { samplePlayer with
        progress := { samplePlayer.progress with gold := 250 } } "hp" 2).factory.get
      .hp).multiplier = 1 + (2 : ℚ) / 5 ∧
    ((upgradeNTimes { samplePlayer with
        progress := { samplePlayer.progress with gold := 250 } } "hp" 2).factory.get
      .hp).level = 1 + (2 : Int) := by
  apply upgradeNTimes_cost_multiplier _ "hp" .hp 2 (by decide) (by decide)
  intro i hi
  interval_cases i
  · decide
  · show (upgradeStation (upgradeStation _ "hp").2 "hp").1 = true
    norm_num [upgradeStation, getStationByType, Factory.get, Factory.set,
      samplePlayer, defaultFactory, defaultStation, goTrunc, upgradeNTimes]

/-- A player rich enough for four hp upgrades (100+150+225+337 = 812). -/
def richPlayer : Player :=
  { samplePlayer with progress := { samplePlayer.progress with gold := 812 } }

/-- Counterexample to C1 as stated: four successful upgrades starting
from the default station leave cost 505, but the claimed closed form
`⌊100 × 1.5^4⌋` is 506 — the incremental truncation diverges from the
closed form at n = 4. -/
theorem upgradeNTimes_closed_form_counterexample :
    upgradesSucceed richPlayer "hp" 4 ∧
    ((upgradeNTimes richPlayer "hp" 4).factory.get .hp).cost = 505 ∧
    goTrunc ((100 : ℚ) * (3/2) ^ 4) = 506 ∧
    ((upgradeNTimes richPlayer "hp" 4).factory.get .hp).cost ≠
      goTrunc ((100 : ℚ) * (3/2) ^ 4) := by
  have h4 : ((upgradeNTimes richPlayer "hp" 4).factory.get .hp).cost = 505 := by
    show ((upgradeStation (upgradeStation (upgradeStation (upgradeStation
      richPlayer "hp").2 "hp").2 "hp").2 "hp").2.factory.get .hp).cost = 505
    norm_num [upgradeStation, getStationByType, Factory.get, Factory.set,
      richPlayer, samplePlayer, defaultFactory, defaultStation, goTrunc,
      Int.tdiv]
  have hclosed : goTrunc ((100 : ℚ) * (3/2) ^ 4) = 506 := by
    norm_num [goTrunc, Int.tdiv]
  refine ⟨?_, h4, hclosed, by rw [h4, hclosed]; decide⟩
  intro i hi
  interval_cases i
  · decide
  · show (upgradeStation (upgradeStation richPlayer "hp").2 "hp").1 = true
    norm_num [upgradeStation, getStationByType, Factory.get, Factory.set,
      richPlayer, samplePlayer, defaultFactory, defaultStation, goTrunc,
      Int.tdiv]
  · show (upgradeStation (upgradeStation (upgradeStation
      richPlayer "hp").2 "hp").2 "hp").1 = true
    norm_num [upgradeStation, getStationByType, Factory.get, Factory.set,
      richPlayer, samplePlayer, defaultFactory, defaultStation, goTrunc,
      Int.tdiv]
  · show (upgradeStation (upgradeStation (upgradeStation (upgradeStation
      richPlayer "hp").2 "hp").2 "hp").2 "hp").1 = true
    norm_num [upgradeStation, getStationByType, Factory.get, Factory.set,
      richPlayer, samplePlayer, defaultFactory, defaultStation, goTrunc,
      Int.tdiv]

/-! ## Claim theorems: player creation (C2) -/

/-- C2 (code bug): `getOrCreatePlayer` does not return a default player
for the previously-unseen two-character identifier `"p1"` — the name
construction `"Player " + playerID[:8]` slices 8 bytes out of a
2-byte string, which panics, modelled here as `none`. -/
theorem getOrCreatePlayer_p1_panics :
    getOrCreatePlayer [] "p1" 0 = none ∧ newPlayer "p1" 0 = none :=
  ⟨rfl, rfl⟩

/-! ## Claim theorems: state invariants (C4) -/

/-- The per-player invariant of the spec's data model: gold is
non-negative, the dungeon level is at least 1, and the loot station's
multiplier is non-negative (true from creation on, since it starts at
1.0 and only ever grows). -/
def Inv (p : Player) : Prop :=
  0 ≤ p.progress.gold ∧ 1 ≤ p.progress.dungeonLevel ∧
    0 ≤ p.factory.lootStation.multiplier

theorem goTrunc_nonneg {q : ℚ} (hq : 0 ≤ q) : 0 ≤ goTrunc q :=
  Int.tdiv_nonneg (Rat.num_nonneg.mpr hq) (Int.ofNat_nonneg _)

theorem goldReward_nonneg (p : Player) (hlvl : 1 ≤ p.progress.dungeonLevel)
    (hmul : 0 ≤ p.factory.lootStation.multiplier) :
    0 ≤ (simulateBattle (createHero p.factory) p.progress.dungeonLevel).goldReward := by
  have hloot : 0 ≤ (createHero p.factory).loot := by
    unfold createHero
    exact goTrunc_nonneg (by linarith)
  unfold simulateBattle
  have h10 : (0 : Int) ≤ 10 + p.progress.dungeonLevel * 2 := by omega
  exact mul_nonneg h10 hloot

/-- C4: every operation preserves the invariant — gold never goes
negative (underfunded upgrades are rejected, not clamped) and the
dungeon level never decreases: battle resolution preserves `Inv` and is
non-decreasing in the dungeon level, an upgrade call (any key)
preserves `Inv` and leaves the dungeon level unchanged, and
`getOrCreatePlayer` returns an `Inv`-satisfying player whenever every
player already in the registry satisfies `Inv`; moreover on the
existing-record path it returns the stored player with only the
last-seen stamp refreshed, so its progress — in particular its dungeon
level, which therefore cannot decrease — is untouched. -/
theorem operations_preserve_invariant :
    (∀ p, Inv p → Inv (processPlayer p) ∧
        p.progress.dungeonLevel ≤ (processPlayer p).progress.dungeonLevel) ∧
    (∀ p stationType, Inv p → Inv (upgradeStation p stationType).2 ∧
        (upgradeStation p stationType).2.progress.dungeonLevel =
          p.progress.dungeonLevel) ∧
    (∀ players playerID now p players',
        (∀ k q, List.lookup k players = some q → Inv q) →
        getOrCreatePlayer players playerID now = some (p, players') →
        Inv p ∧
          ∀ q, List.lookup playerID players = some q →
            p = { q with lastSeen := now } ∧
              q.progress.dungeonLevel ≤ p.progress.dungeonLevel) := by
  refine ⟨?_, ?_, ?_⟩
  · rintro p ⟨hg, hl, hm⟩
    have hrew := goldReward_nonneg p hl hm
    unfold processPlayer
    dsimp only
    split
    · refine ⟨⟨?_, ?_, ?_⟩, ?_⟩
      · show 0 ≤ p.progress.gold +
          (simulateBattle (createHero p.factory) p.progress.dungeonLevel).goldReward
        linarith
      · show (1 : Int) ≤ p.progress.dungeonLevel + 1
        omega
      · exact hm
      · show p.progress.dungeonLevel ≤ p.progress.dungeonLevel + 1
        omega
    · have h2 : 0 ≤ goDiv (simulateBattle (createHero p.factory)
          p.progress.dungeonLevel).goldReward 2 :=
        Int.tdiv_nonneg hrew (by omega)
      refine ⟨⟨?_, hl, hm⟩, le_rfl⟩
      show 0 ≤ p.progress.gold + goDiv
        (simulateBattle (createHero p.factory) p.progress.dungeonLevel).goldReward 2
      linarith
  · rintro p stationType ⟨hg, hl, hm⟩
    unfold upgradeStation
    match hfld : getStationByType stationType with
    | none => exact ⟨⟨hg, hl, hm⟩, by trivial⟩
    | some fld =>
      by_cases hcost : p.progress.gold < (p.factory.get fld).cost
      · simp only [if_pos hcost]
        exact ⟨⟨hg, hl, hm⟩, by trivial⟩
      · simp only [if_neg hcost]
        refine ⟨⟨?_, hl, ?_⟩, by trivial⟩
        · show 0 ≤ p.progress.gold - (p.factory.get fld).cost
          omega
        · have h5 : (0 : ℚ) ≤ 1/5 := by norm_num
          cases fld <;>
            simp only [Factory.get, Factory.set] <;>
            first
              | exact hm
              | linarith
  · rintro players playerID now p players' hall hsome
    unfold getOrCreatePlayer at hsome
    match hlk : List.lookup playerID players with
    | some q =>
      rw [hlk] at hsome
      simp only [Option.some.injEq, Prod.mk.injEq] at hsome
      have hq := hall playerID q hlk
      obtain ⟨hp, -⟩ := hsome
      constructor
      · rw [← hp]
        exact hq
      · intro q' hlk'
        injection hlk' with hqq
        rw [← hqq, ← hp]
        exact ⟨rfl, le_rfl⟩
    | none =>
      rw [hlk] at hsome
      refine ⟨?_, fun q' hlk' => absurd hlk' (by simp)⟩
      match hnp : newPlayer playerID now with
      | none => rw [hnp] at hsome; exact absurd hsome (by simp)
      | some r =>
        rw [hnp] at hsome
        simp only [Option.some.injEq, Prod.mk.injEq] at hsome
        obtain ⟨hp, -⟩ := hsome
        unfold newPlayer at hnp
        match hsl : goSliceTo playerID 8 with
        | none => rw [hsl] at hnp; exact absurd hnp (by simp)
        | some pre =>
          rw [hsl] at hnp
          simp only [Option.some.injEq] at hnp
          rw [← hp, ← hnp]
          refine ⟨le_rfl, le_rfl, ?_⟩
          norm_num [defaultFactory, defaultStation]

/-- Witness for C4: the three conjuncts applied at the default-shaped
sample players, the empty registry, and a one-entry registry
exercising the existing-record path. -/
theorem operations_preserve_invariant_witness :
    Inv (processPlayer brokePlayer) ∧
    Inv (upgradeStation samplePlayer "hp").2 ∧
    Inv { id := "abcdefgh", name := "Player abcdefgh", factory := defaultFactory
          progress := defaultProgress, lastSeen := 7 } ∧
    samplePlayer.progress.dungeonLevel ≤
      ({ samplePlayer with lastSeen := 9 } : Player).progress.dungeonLevel := by
  have hb : Inv brokePlayer := by
    refine ⟨le_rfl, le_rfl, ?_⟩
    norm_num [brokePlayer, samplePlayer, defaultFactory, defaultStation]
  have hs : Inv samplePlayer := by
    refine ⟨by norm_num [samplePlayer], le_rfl, ?_⟩
    norm_num [samplePlayer, defaultFactory, defaultStation]
  have hone : ∀ k q, List.lookup k [("s", samplePlayer)] = some q → Inv q := by
    intro k q h
    have hq : q = samplePlayer := by
      simp only [List.lookup] at h
      split at h
      · injection h with h2
        exact h2.symm
      · exact absurd h (by simp)
    rw [hq]
    exact hs
  have hexist := (operations_preserve_invariant.2.2) [("s", samplePlayer)] "s" 9
    { samplePlayer with lastSeen := 9 }
    [("s", { samplePlayer with lastSeen := 9 })] hone (by decide)
  refine ⟨((operations_preserve_invariant.1) brokePlayer hb).1,
    ((operations_preserve_invariant.2.1) samplePlayer "hp" hs).1,
    ((operations_preserve_invariant.2.2) [] "abcdefgh" 7 _
      [("abcdefgh", { id := "abcdefgh", name := "Player abcdefgh"
                      factory := defaultFactory, progress := defaultProgress
                      lastSeen := 7 })] (by simp) (by decide)).1,
    (hexist.2 samplePlayer (by decide)).2⟩

end IdleDungeon
